import Mathlib

/-!
Verification development for the incremental ETL pipeline
(schema-drift-aware incremental extraction with cursor tracking).

The Python sources are shallowly embedded: pure functions become Lean
functions, the GCS-backed metadata state becomes an explicit record that
the operations thread, and the orchestrator's extract/transform/load loop
becomes a fold over an explicit list of loop events (a yielded chunk, or
an exception raised while processing a chunk).
-/

/-- Single-quote character, used when reproducing Python string literals. -/
def sglQuote : String := String.singleton (Char.ofNat 39)

/-- Model of Python `str.lower()` (per-character lower-casing). -/
def pyLower (s : String) : String := String.mk (s.data.map Char.toLower)

/-- Model of the Python substring test `needle in hay` on explicit
character lists: true iff `needle` occurs contiguously inside `hay`. -/
def listContainsSub (needle : List Char) : List Char → Bool
  | [] => needle.isEmpty
  | c :: t => needle.isPrefixOf (c :: t) || listContainsSub needle t

/-- Model of the Python membership test `needle in hay` on strings. -/
def pyIn (needle hay : String) : Bool :=
  listContainsSub needle.data hay.data

theorem listContainsSub_iff (needle hay : List Char) :
    listContainsSub needle hay = true ↔ needle <:+: hay := by
  induction hay with
  | nil =>
    simp [listContainsSub, List.isEmpty_iff]
  | cons c t ih =>
    simp only [listContainsSub, Bool.or_eq_true, List.isPrefixOf_iff_prefix, ih,
      List.infix_cons_iff]

theorem pyIn_of_middle {needle hay : String} (a b : String) (h : hay = a ++ needle ++ b) :
    pyIn needle hay = true := by
  rw [pyIn, listContainsSub_iff, h]
  exact ⟨a.data, b.data, by simp [String.data_append]⟩

/-- The canonical (PyArrow) column types produced by the type mappers. -/
inductive PyArrowDType where
  | int64 : PyArrowDType
  | decimal128 (precision scale : Nat) : PyArrowDType
  | float64 : PyArrowDType
  | boolT : PyArrowDType
  | timestampUnit (unit : String) : PyArrowDType
  | stringT : PyArrowDType
  | date32 : PyArrowDType
deriving DecidableEq

/-- The warning text logged by `app/utils/schema.py` when no mapping rule
matches a native SQL type. -/
def unmappedWarning (sql_type : String) : String :=
  "Unmapped SQL type " ++ sglQuote ++ sql_type ++ sglQuote ++ " found. Defaulting to pa.string()."

namespace UtilsSchema

/-- Embedding of `_map_sql_to_pyarrow_dtype` from `app/utils/schema.py`.
The second component records the warnings logged during the call. -/
def mapSqlToPyarrowDtype (sql_type : String) : PyArrowDType × List String :=
  if pyIn "int" (pyLower sql_type) || pyIn "smallint" (pyLower sql_type) || pyIn "tinyint" (pyLower sql_type) || pyIn "bigint" (pyLower sql_type) then
    (PyArrowDType.int64, [])
  else if pyIn "decimal" (pyLower sql_type) || pyIn "numeric" (pyLower sql_type) || pyIn "money" (pyLower sql_type) then
    (PyArrowDType.decimal128 38 9, [])
  else if pyIn "float" (pyLower sql_type) || pyIn "real" (pyLower sql_type) then
    (PyArrowDType.float64, [])
  else if pyIn "bit" (pyLower sql_type) then
    (PyArrowDType.boolT, [])
  else if pyIn "timestamp" (pyLower sql_type) || pyIn "datetime" (pyLower sql_type) then
    (PyArrowDType.timestampUnit "ms", [])
  else if pyIn "char" (pyLower sql_type) || pyIn "text" (pyLower sql_type) || pyIn "varchar" (pyLower sql_type) || pyIn "nvarchar" (pyLower sql_type) then
    (PyArrowDType.stringT, [])
  else if pyIn "date" (pyLower sql_type) then
    (PyArrowDType.date32, [])
  else
    (PyArrowDType.stringT, [unmappedWarning sql_type])

end UtilsSchema

namespace UtilsValidation

/-- Embedding of `_map_sql_to_pyarrow_dtype` from `app/utils/validation.py`.
This older revision has no explicit char/text/varchar/nvarchar rule and its
fallback logs no warning. -/
def mapSqlToPyarrowDtype (sql_type : String) : PyArrowDType × List String :=
  if pyIn "int" (pyLower sql_type) || pyIn "smallint" (pyLower sql_type) || pyIn "tinyint" (pyLower sql_type) || pyIn "bigint" (pyLower sql_type) then
    (PyArrowDType.int64, [])
  else if pyIn "decimal" (pyLower sql_type) || pyIn "numeric" (pyLower sql_type) || pyIn "money" (pyLower sql_type) then
    (PyArrowDType.decimal128 38 9, [])
  else if pyIn "float" (pyLower sql_type) || pyIn "real" (pyLower sql_type) then
    (PyArrowDType.float64, [])
  else if pyIn "bit" (pyLower sql_type) then
    (PyArrowDType.boolT, [])
  else if pyIn "timestamp" (pyLower sql_type) || pyIn "datetime" (pyLower sql_type) then
    (PyArrowDType.timestampUnit "ms", [])
  else if pyIn "date" (pyLower sql_type) then
    (PyArrowDType.date32, [])
  else
    (PyArrowDType.stringT, [])

end UtilsValidation

example : (UtilsSchema.mapSqlToPyarrowDtype "DATETIME2(3)").1 = PyArrowDType.timestampUnit "ms" := by decide
example : (UtilsSchema.mapSqlToPyarrowDtype "datetext").1 = PyArrowDType.stringT := by decide
example : (UtilsValidation.mapSqlToPyarrowDtype "datetext").1 = PyArrowDType.date32 := by decide
example : (UtilsValidation.mapSqlToPyarrowDtype "xml").2 = [] := by decide
example : (UtilsSchema.mapSqlToPyarrowDtype "xml").2 = [unmappedWarning "xml"] := by decide

/-- True iff one of the five rules preceding the char/text and date rules
matches (these five rules are identical in both mapper revisions). -/
def earlyRuleMatches (s : String) : Bool :=
  (pyIn "int" (pyLower s) || pyIn "smallint" (pyLower s) || pyIn "tinyint" (pyLower s) || pyIn "bigint" (pyLower s)) ||
  (pyIn "decimal" (pyLower s) || pyIn "numeric" (pyLower s) || pyIn "money" (pyLower s)) ||
  (pyIn "float" (pyLower s) || pyIn "real" (pyLower s)) ||
  (pyIn "bit" (pyLower s)) ||
  (pyIn "timestamp" (pyLower s) || pyIn "datetime" (pyLower s))

/-- True iff the explicit string rule of `app/utils/schema.py` matches. -/
def charFamilyMatches (s : String) : Bool :=
  pyIn "char" (pyLower s) || pyIn "text" (pyLower s) || pyIn "varchar" (pyLower s) || pyIn "nvarchar" (pyLower s)

/-- True iff no rule of the `app/utils/schema.py` mapper matches `s`. -/
def schemaNoRuleMatches (s : String) : Bool :=
  !(earlyRuleMatches s) && !(charFamilyMatches s) && !(pyIn "date" (pyLower s))

/-- True iff no rule of the `app/utils/validation.py` mapper matches `s`. -/
def validationNoRuleMatches (s : String) : Bool :=
  !(earlyRuleMatches s) && !(pyIn "date" (pyLower s))

/-- The exact condition under which the two mapper revisions disagree. -/
def mapperDivergence (s : String) : Bool :=
  !(earlyRuleMatches s) && charFamilyMatches s && pyIn "date" (pyLower s)

/-- C5 (amended): both type mappers are total functions that apply their
rules in order with first match winning; in both, the `date` rule is
tested only after the `timestamp`/`datetime` rule, so a datetime type is
never classified as date-only.  Every input matched by no rule falls back
to string; the `utils/schema.py` mapper logs exactly one warning naming
the unmapped native type, while the `utils/validation.py` mapper logs no
warning at all. -/
theorem typeMapper_rule_order_and_fallback (s : String) :
    ((pyIn "timestamp" (pyLower s) = true ∨ pyIn "datetime" (pyLower s) = true) →
       (UtilsSchema.mapSqlToPyarrowDtype s).1 ≠ PyArrowDType.date32 ∧
       (UtilsValidation.mapSqlToPyarrowDtype s).1 ≠ PyArrowDType.date32) ∧
    (schemaNoRuleMatches s = true →
       UtilsSchema.mapSqlToPyarrowDtype s = (PyArrowDType.stringT, [unmappedWarning s]) ∧
       pyIn s (unmappedWarning s) = true) ∧
    (validationNoRuleMatches s = true →
       UtilsValidation.mapSqlToPyarrowDtype s = (PyArrowDType.stringT, [])) := by
  refine ⟨fun h => ⟨?_, ?_⟩, fun h => ⟨?_, ?_⟩, fun h => ?_⟩
  · unfold UtilsSchema.mapSqlToPyarrowDtype
    split_ifs <;> simp_all
  · unfold UtilsValidation.mapSqlToPyarrowDtype
    split_ifs <;> simp_all
  · simp only [schemaNoRuleMatches, earlyRuleMatches, charFamilyMatches,
      Bool.and_eq_true, Bool.not_eq_true', Bool.or_eq_false_iff] at h
    unfold UtilsSchema.mapSqlToPyarrowDtype
    split_ifs <;> simp_all
  · exact pyIn_of_middle ("Unmapped SQL type " ++ sglQuote)
      (sglQuote ++ " found. Defaulting to pa.string().")
      (by apply String.ext; simp [unmappedWarning, String.data_append, List.append_assoc])
  · simp only [validationNoRuleMatches, earlyRuleMatches,
      Bool.and_eq_true, Bool.not_eq_true', Bool.or_eq_false_iff] at h
    unfold UtilsValidation.mapSqlToPyarrowDtype
    split_ifs <;> simp_all

/-- Witness for C5's amended theorem at concrete inputs: `smalldatetime`
maps to a timestamp (never a date), `geometry` is unmatched and falls back
to string — with one warning in `utils/schema.py` and none in
`utils/validation.py`. -/
theorem typeMapper_rule_order_and_fallback_witness :
    ((UtilsSchema.mapSqlToPyarrowDtype "smalldatetime").1 ≠ PyArrowDType.date32 ∧
     (UtilsValidation.mapSqlToPyarrowDtype "smalldatetime").1 ≠ PyArrowDType.date32) ∧
    (UtilsSchema.mapSqlToPyarrowDtype "geometry" = (PyArrowDType.stringT, [unmappedWarning "geometry"])) ∧
    (UtilsValidation.mapSqlToPyarrowDtype "geometry" = (PyArrowDType.stringT, [])) :=
  ⟨(typeMapper_rule_order_and_fallback "smalldatetime").1 (Or.inr (by decide)),
   ((typeMapper_rule_order_and_fallback "geometry").2.1 (by decide)).1,
   (typeMapper_rule_order_and_fallback "geometry").2.2 (by decide)⟩

/-- Counterexample to C5 as stated: the mapper revision in
`app/utils/validation.py` maps the unmatched native type `xml` to string
but logs zero warnings, not exactly one. -/
theorem typeMapper_fallback_warning_cex :
    (UtilsValidation.mapSqlToPyarrowDtype "xml").1 = PyArrowDType.stringT ∧
    (UtilsValidation.mapSqlToPyarrowDtype "xml").2 = [] ∧
    (UtilsValidation.mapSqlToPyarrowDtype "xml").2.length ≠ 1 :=
  ⟨by decide, by decide, by decide⟩

/-- C10 (amended): the two revisions of the SQL-to-PyArrow type mapper
return the same canonical type on every input, except exactly those inputs
that match none of the int/decimal/float/bit/timestamp rules while
containing both `date` and one of `char`/`text`/`varchar`/`nvarchar`; on
those inputs `utils/schema.py` returns string and `utils/validation.py`
returns date32. -/
theorem typeMappers_agree_except_divergence (s : String) :
    ((UtilsSchema.mapSqlToPyarrowDtype s).1 ≠ (UtilsValidation.mapSqlToPyarrowDtype s).1 ↔
       mapperDivergence s = true) ∧
    (mapperDivergence s = true →
       (UtilsSchema.mapSqlToPyarrowDtype s).1 = PyArrowDType.stringT ∧
       (UtilsValidation.mapSqlToPyarrowDtype s).1 = PyArrowDType.date32) := by
  unfold UtilsSchema.mapSqlToPyarrowDtype UtilsValidation.mapSqlToPyarrowDtype
    mapperDivergence earlyRuleMatches charFamilyMatches
  split_ifs <;> simp_all <;> intros <;> simp_all

/-- Witness for C10's amended theorem: on `datetext` the divergence
condition holds, and the two mappers return string and date32. -/
theorem typeMappers_agree_witness :
    (UtilsSchema.mapSqlToPyarrowDtype "datetext").1 = PyArrowDType.stringT ∧
    (UtilsValidation.mapSqlToPyarrowDtype "datetext").1 = PyArrowDType.date32 :=
  (typeMappers_agree_except_divergence "datetext").2 (by decide)

/-- Counterexample to C10 as stated: on the native type string `datetext`
the two mapper revisions return different canonical types. -/
theorem typeMappers_divergence_cex :
    (UtilsSchema.mapSqlToPyarrowDtype "datetext").1 ≠ (UtilsValidation.mapSqlToPyarrowDtype "datetext").1 := by
  decide

/-- Data container for schema drift information, embedding the
`SchemaDriftInfo` dataclass of `app/utils/schema.py` (the Python sets
become finite sets of column names). -/
structure SchemaDriftInfo where
  new_columns : Finset String
  deleted_columns : Finset String
  columns_to_select : List String
deriving DecidableEq

/-- The key set of a Python dict modelled as an association list. -/
def dictKeys (d : List (String × String)) : Finset String :=
  (d.map Prod.fst).toFinset

/-- Embedding of `validate_current_schema` from `app/utils/schema.py`:
set differences of the key sets both ways, and the lexicographically
sorted intersection as the selection list. -/
def validate_current_schema (reference current : List (String × String)) : SchemaDriftInfo :=
  SchemaDriftInfo.mk
    (dictKeys current \ dictKeys reference)
    (dictKeys reference \ dictKeys current)
    ((dictKeys reference ∩ dictKeys current).sort (fun a b => a ≤ b))

/-- C2: for every pair of schemas, `validate_current_schema` returns new
columns = current minus reference, deleted columns = reference minus
current, and the sorted intersection as the selection list; reconciling a
schema with itself yields no drift and the sorted key list. -/
theorem validateCurrentSchema_drift_sets (reference current S : List (String × String)) :
    (validate_current_schema reference current).new_columns = dictKeys current \ dictKeys reference ∧
    (validate_current_schema reference current).deleted_columns = dictKeys reference \ dictKeys current ∧
    (validate_current_schema reference current).columns_to_select =
      (dictKeys reference ∩ dictKeys current).sort (fun a b => a ≤ b) ∧
    (validate_current_schema S S).new_columns = ∅ ∧
    (validate_current_schema S S).deleted_columns = ∅ ∧
    (validate_current_schema S S).columns_to_select = (dictKeys S).sort (fun a b => a ≤ b) := by
  refine ⟨rfl, rfl, rfl, ?_, ?_, ?_⟩ <;>
    simp [validate_current_schema, Finset.sdiff_self, Finset.inter_self]

/-- Opening brace character. -/
def lbrace : Char := Char.ofNat 123

/-- Closing brace character. -/
def rbrace : Char := Char.ofNat 125

/-- Lower-case hexadecimal digit character for a value below 16. -/
def hexDigitChar (n : Nat) : Char :=
  if n < 10 then Char.ofNat (48 + n) else Char.ofNat (87 + n)

/-- JSON string escaping of one character, modelling the escaping done by
Python `json.dumps` on string values: quote, backslash and the short
control escapes get a two-character escape, remaining control characters
get a `\u00XY` escape, and any other character is emitted as itself.
(CPython additionally `\u`-escapes non-ASCII characters by default; the
serialize/parse round-trip behaviour is identical either way.) -/
def jsonEscapeChar (c : Char) : List Char :=
  if c = '"' then ['\\', '"']
  else if c = '\\' then ['\\', '\\']
  else if c = '\n' then ['\\', 'n']
  else if c = '\t' then ['\\', 't']
  else if c = '\r' then ['\\', 'r']
  else if c.toNat = 8 then ['\\', 'b']
  else if c.toNat = 12 then ['\\', 'f']
  else if c.toNat < 32 then ['\\', 'u', '0', '0', hexDigitChar (c.toNat / 16), hexDigitChar (c.toNat % 16)]
  else [c]

/-- JSON string escaping of a character sequence. -/
def jsonEscapeChars : List Char → List Char
  | [] => []
  | c :: cs => jsonEscapeChar c ++ jsonEscapeChars cs

/-- One `    "key": "value"` member line of the pretty-printed object
(`indent=4`). -/
def jsonEntryChars (kv : String × String) : List Char :=
  ' ' :: ' ' :: ' ' :: ' ' :: '"' ::
    (jsonEscapeChars kv.1.data ++ '"' :: ':' :: ' ' :: '"' :: (jsonEscapeChars kv.2.data ++ ['"']))

/-- The text following a member line: either the closing `\n}` or a comma,
a newline and the remaining member lines. -/
def jsonBodyChars : List (String × String) → List Char
  | [] => ['\n', rbrace]
  | kv :: tl => ',' :: '\n' :: (jsonEntryChars kv ++ jsonBodyChars tl)

/-- All member lines of a non-empty object, starting with the newline that
follows the opening brace. -/
def jsonMembersChars : List (String × String) → List Char
  | [] => []
  | kv :: tl => '\n' :: (jsonEntryChars kv ++ jsonBodyChars tl)

/-- Model of Python `json.dumps(schema, indent=4)` for a dict of strings
(the dict is modelled as an association list in insertion order). -/
def jsonDumps (S : List (String × String)) : String :=
  match S with
  | [] => String.mk [lbrace, rbrace]
  | _ :: _ => String.mk (lbrace :: jsonMembersChars S)

/-- JSON whitespace. -/
def isJsonWs (c : Char) : Bool :=
  c = ' ' || c = '\n' || c = '\t' || c = '\r'

/-- Drop leading JSON whitespace. -/
def skipWs : List Char → List Char
  | [] => []
  | c :: cs => if isJsonWs c then skipWs cs else c :: cs

/-- Value of a hexadecimal digit character. -/
def hexVal (c : Char) : Option Nat :=
  if 48 ≤ c.toNat ∧ c.toNat ≤ 57 then some (c.toNat - 48)
  else if 97 ≤ c.toNat ∧ c.toNat ≤ 102 then some (c.toNat - 87)
  else if 65 ≤ c.toNat ∧ c.toNat ≤ 70 then some (c.toNat - 55)
  else none

/-- The short JSON escapes accepted after a backslash. -/
def unescShort (c : Char) : Option Char :=
  if c = '"' then some '"'
  else if c = '\\' then some '\\'
  else if c = '/' then some '/'
  else if c = 'n' then some '\n'
  else if c = 't' then some '\t'
  else if c = 'r' then some '\r'
  else if c = 'b' then some (Char.ofNat 8)
  else if c = 'f' then some (Char.ofNat 12)
  else none

/-- Parse the body of a JSON string (after the opening quote) up to and
including the closing quote, returning the decoded characters and the
remaining input. -/
def parseStringBody : List Char → Option (List Char × List Char)
  | [] => none
  | c :: cs =>
    if c = '"' then some ([], cs)
    else if c = '\\' then
      match cs with
      | [] => none
      | e :: cs₁ =>
        if e = 'u' then
          match cs₁ with
          | a :: b :: c₂ :: d :: cs₂ =>
            match hexVal a, hexVal b, hexVal c₂, hexVal d with
            | some va, some vb, some vc, some vd =>
              match parseStringBody cs₂ with
              | some (content, rest) =>
                some (Char.ofNat (((va * 16 + vb) * 16 + vc) * 16 + vd) :: content, rest)
              | none => none
            | _, _, _, _ => none
          | _ => none
        else
          match unescShort e with
          | some u =>
            match parseStringBody cs₁ with
            | some (content, rest) => some (u :: content, rest)
            | none => none
          | none => none
    else if c.toNat < 32 then none
    else
      match parseStringBody cs with
      | some (content, rest) => some (c :: content, rest)
      | none => none

/-- Parse the members of a JSON object of string values, starting right
after the opening brace (or after a comma), up to and including the
closing brace.  `fuel` bounds the number of members. -/
def parseMembersAux : Nat → List Char → Option (List (String × String) × List Char)
  | 0, _ => none
  | fuel + 1, cs =>
    match skipWs cs with
    | [] => none
    | c :: cs₁ =>
      if c = '"' then
        match parseStringBody cs₁ with
        | none => none
        | some (k, cs₂) =>
          match skipWs cs₂ with
          | [] => none
          | c₃ :: cs₃ =>
            if c₃ = ':' then
              match skipWs cs₃ with
              | [] => none
              | c₄ :: cs₄ =>
                if c₄ = '"' then
                  match parseStringBody cs₄ with
                  | none => none
                  | some (v, cs₅) =>
                    match skipWs cs₅ with
                    | [] => none
                    | c₆ :: cs₆ =>
                      if c₆ = ',' then
                        match parseMembersAux fuel cs₆ with
                        | some (ms, rest) => some ((String.mk k, String.mk v) :: ms, rest)
                        | none => none
                      else if c₆ = rbrace then
                        some ([(String.mk k, String.mk v)], cs₆)
                      else none
                else none
            else none
      else none

/-- Model of Python `json.loads` restricted to objects whose values are
strings (the shape `get_reference_schema` expects); any other input is a
parse failure, which the caller turns into "absent". -/
def jsonLoads (s : String) : Option (List (String × String)) :=
  match skipWs s.data with
  | [] => none
  | c :: cs₁ =>
    if c = lbrace then
      match skipWs cs₁ with
      | [] => none
      | d :: cs₂ =>
        if d = rbrace then
          if skipWs cs₂ = [] then some [] else none
        else
          match parseMembersAux (cs₁.length + 1) cs₁ with
          | some (ms, rest) => if skipWs rest = [] then some ms else none
          | none => none
    else none

theorem stringMk_data (s : String) : String.mk s.data = s := rfl

theorem hexVal_hexDigitChar (m : Nat) (h : m < 16) : hexVal (hexDigitChar m) = some m := by
  interval_cases m <;> decide

theorem parseStringBody_escape (cs rest : List Char) :
    parseStringBody (jsonEscapeChars cs ++ '"' :: rest) = some (cs, rest) := by
  induction cs with
  | nil =>
    rw [jsonEscapeChars, List.nil_append, parseStringBody.eq_def]
    simp
  | cons c cs ih =>
    rw [jsonEscapeChars, List.append_assoc]
    by_cases h1 : c = '"'
    · rw [jsonEscapeChar, if_pos h1, List.cons_append, List.cons_append, List.nil_append,
        parseStringBody.eq_def]
      simp +decide [unescShort, ih, h1]
    · by_cases h2 : c = '\\'
      · rw [jsonEscapeChar, if_neg h1, if_pos h2, List.cons_append, List.cons_append,
          List.nil_append, parseStringBody.eq_def]
        simp +decide [unescShort, ih, h2]
      · by_cases h3 : c = '\n'
        · rw [jsonEscapeChar, if_neg h1, if_neg h2, if_pos h3, List.cons_append,
            List.cons_append, List.nil_append, parseStringBody.eq_def]
          simp +decide [unescShort, ih, h3]
        · by_cases h4 : c = '\t'
          · rw [jsonEscapeChar, if_neg h1, if_neg h2, if_neg h3, if_pos h4, List.cons_append,
              List.cons_append, List.nil_append, parseStringBody.eq_def]
            simp +decide [unescShort, ih, h4]
          · by_cases h5 : c = '\r'
            · rw [jsonEscapeChar, if_neg h1, if_neg h2, if_neg h3, if_neg h4, if_pos h5,
                List.cons_append, List.cons_append, List.nil_append, parseStringBody.eq_def]
              simp +decide [unescShort, ih, h5]
            · by_cases h6 : c.toNat = 8
              · have hc : Char.ofNat 8 = c := by rw [← h6, Char.ofNat_toNat]
                rw [jsonEscapeChar, if_neg h1, if_neg h2, if_neg h3, if_neg h4, if_neg h5,
                  if_pos h6, List.cons_append, List.cons_append, List.nil_append,
                  parseStringBody.eq_def]
                simp +decide [unescShort, ih, hc]
                exact hc
              · by_cases h7 : c.toNat = 12
                · have hc : Char.ofNat 12 = c := by rw [← h7, Char.ofNat_toNat]
                  rw [jsonEscapeChar, if_neg h1, if_neg h2, if_neg h3, if_neg h4, if_neg h5,
                    if_neg h6, if_pos h7, List.cons_append, List.cons_append, List.nil_append,
                    parseStringBody.eq_def]
                  simp +decide [unescShort, ih, hc]
                  exact hc
                · by_cases h8 : c.toNat < 32
                  · have h0 : hexVal (Char.ofNat 48) = some 0 := by decide
                    have hv1 : hexVal (hexDigitChar (c.toNat / 16)) = some (c.toNat / 16) :=
                      hexVal_hexDigitChar _ (by omega)
                    have hv2 : hexVal (hexDigitChar (c.toNat % 16)) = some (c.toNat % 16) :=
                      hexVal_hexDigitChar _ (by omega)
                    have harith : ((0 * 16 + 0) * 16 + c.toNat / 16) * 16 + c.toNat % 16 = c.toNat := by
                      omega
                    rw [jsonEscapeChar, if_neg h1, if_neg h2, if_neg h3, if_neg h4, if_neg h5,
                      if_neg h6, if_neg h7, if_pos h8]
                    rw [List.cons_append, List.cons_append, List.cons_append, List.cons_append,
                      List.cons_append, List.cons_append, List.nil_append, parseStringBody.eq_def]
                    simp +decide [h0, hv1, hv2, ih, harith, Char.ofNat_toNat]
                    have harith2 : c.toNat / 16 * 16 + c.toNat % 16 = c.toNat := by omega
                    rw [harith2, Char.ofNat_toNat]
                  · rw [jsonEscapeChar, if_neg h1, if_neg h2, if_neg h3, if_neg h4, if_neg h5,
                      if_neg h6, if_neg h7, if_neg h8, List.cons_append, List.nil_append,
                      parseStringBody.eq_def]
                    simp [h1, h2, h8, ih]

theorem data_stringMk (l : List Char) : (String.mk l).data = l := rfl

theorem parseMembersAux_members (kv : String × String) (tl : List (String × String)) :
    ∀ fuel, tl.length < fuel →
      parseMembersAux fuel (jsonMembersChars (kv :: tl)) = some (kv :: tl, []) := by
  induction tl generalizing kv with
  | nil =>
    intro fuel hf
    obtain ⟨f, rfl⟩ : ∃ f, fuel = f + 1 := ⟨fuel - 1, by omega⟩
    rw [parseMembersAux.eq_def]
    simp +decide [jsonMembersChars, jsonEntryChars, jsonBodyChars, skipWs, isJsonWs,
      List.append_assoc, parseStringBody_escape, stringMk_data]
  | cons kv2 tl2 ih =>
    intro fuel hf
    obtain ⟨f, rfl⟩ : ∃ f, fuel = f + 1 := ⟨fuel - 1, by omega⟩
    have hrec := ih kv2 f (by simp only [List.length_cons] at hf; omega)
    rw [parseMembersAux.eq_def]
    simp +decide [jsonMembersChars, jsonEntryChars, jsonBodyChars, skipWs, isJsonWs,
      List.append_assoc, parseStringBody_escape, stringMk_data] at hrec ⊢
    simp [hrec]

theorem jsonBodyChars_length (tl : List (String × String)) :
    tl.length ≤ (jsonBodyChars tl).length := by
  induction tl with
  | nil => simp [jsonBodyChars]
  | cons kv t ih =>
    simp only [jsonBodyChars, List.length_cons, List.length_append]
    omega

/-- Round trip of the JSON model: parsing back the pretty-printed object
recovers exactly the serialized association list. -/
theorem jsonLoads_jsonDumps (S : List (String × String)) :
    jsonLoads (jsonDumps S) = some S := by
  match S with
  | [] => decide
  | kv :: tl =>
    have hlen : tl.length < (jsonMembersChars (kv :: tl)).length + 1 := by
      have h1 := jsonBodyChars_length tl
      simp only [jsonMembersChars, List.length_cons, List.length_append]
      omega
    have hmem := parseMembersAux_members kv tl ((jsonMembersChars (kv :: tl)).length + 1) hlen
    rw [jsonDumps, jsonLoads]
    simp +decide [jsonMembersChars, jsonEntryChars, jsonBodyChars, skipWs, isJsonWs,
      List.append_assoc, data_stringMk] at hmem ⊢
    simp [hmem, skipWs]

/-- A failure of a GCS blob download: the object may be absent, or the
read may fail transiently; `get_last_cursor_value` and
`get_reference_schema` catch every exception alike. -/
inductive GcsReadError where
  | notFound : GcsReadError
  | transient (msg : String) : GcsReadError
deriving DecidableEq

/-- The durable metadata state kept per table by `GCSMetadataManager`:
the cursor text blob and the reference-schema JSON blob. -/
structure MetadataStore where
  cursorBlob : Option String
  schemaBlob : Option String
deriving DecidableEq

/-- The sentinel cursor `get_last_cursor_value` returns when the read of
the cursor blob fails, signalling a full historical load. -/
def defaultCursorSentinel : String := "1900-01-01 00:00:00.000"

/-- Embedding of `GCSMetadataManager.get_last_cursor_value` over the
outcome of the underlying blob download: the downloaded text on success,
the sentinel on any failure (the Python code catches every exception). -/
def getLastCursorValue (r : Except GcsReadError String) : String :=
  match r with
  | Except.ok s => s
  | Except.error _ => defaultCursorSentinel

/-- A fault-free download of a blob: contents when present, a not-found
error when absent. -/
def blobDownload (b : Option String) : Except GcsReadError String :=
  match b with
  | some s => Except.ok s
  | none => Except.error GcsReadError.notFound

/-- `get_last_cursor_value` reading directly from the store state. -/
def getLastCursorValueStore (st : MetadataStore) : String :=
  getLastCursorValue (blobDownload st.cursorBlob)

/-- Embedding of `GCSMetadataManager.get_reference_schema`: download and
JSON-parse the schema blob; any failure yields `none` ("absent"). -/
def getReferenceSchema (st : MetadataStore) : Option (List (String × String)) :=
  match st.schemaBlob with
  | some s => jsonLoads s
  | none => none

/-- Embedding of `GCSMetadataManager.save_reference_schema`: overwrite
the schema blob with the pretty-printed JSON serialization. -/
def saveReferenceSchema (st : MetadataStore) (schema : List (String × String)) : MetadataStore :=
  MetadataStore.mk st.cursorBlob (some (jsonDumps schema))

/-- Embedding of `GCSMetadataManager.update_cursor_value`: skip (with a
warning) when the new value is falsy, otherwise overwrite the cursor blob. -/
def updateCursorValue (st : MetadataStore) (v : String) : MetadataStore :=
  if v = "" then st else MetadataStore.mk (some v) st.schemaBlob

/-- C7: for every schema (a finite map from column names to native type
strings, modelled as an association list) and every store state, saving
the schema as the reference schema and reading it back returns a schema
equal to the saved one, with the same keys and the same native-type
strings — the JSON serialize/parse round-trip. -/
theorem saveReferenceSchema_roundTrip (st : MetadataStore) (S : List (String × String)) :
    getReferenceSchema (saveReferenceSchema st S) = some S := by
  simp [getReferenceSchema, saveReferenceSchema, jsonLoads_jsonDumps]

/-- A Python `datetime`/pandas timestamp value as the orchestrator
compares and formats it (naive, UTC). -/
structure PyDateTime where
  year : Nat
  month : Nat
  day : Nat
  hour : Nat
  minute : Nat
  second : Nat
  microsecond : Nat
deriving DecidableEq

/-- The fields of a datetime, most significant first. -/
def dtFields (t : PyDateTime) : List Nat :=
  [t.year, t.month, t.day, t.hour, t.minute, t.second, t.microsecond]

/-- Strict lexicographic comparison of Nat lists. -/
def natListLt : List Nat → List Nat → Bool
  | _, [] => false
  | [], _ :: _ => true
  | a :: as, b :: bs => decide (a < b) || (decide (a = b) && natListLt as bs)

/-- Chronological (strict) comparison of datetimes, as pandas timestamp
comparison behaves in the loop's `current_max > max_cursor_in_run`. -/
def dtLt (a b : PyDateTime) : Bool :=
  natListLt (dtFields a) (dtFields b)

theorem natListLt_trans (l1 : List Nat) : ∀ l2 l3, natListLt l1 l2 = true →
    natListLt l2 l3 = true → natListLt l1 l3 = true := by
  induction l1 with
  | nil =>
    intro l2 l3 h1 h2
    cases l2 with
    | nil => simp [natListLt] at h1
    | cons b bs =>
      cases l3 with
      | nil => simp [natListLt] at h2
      | cons c cs => simp [natListLt]
  | cons a as ih =>
    intro l2 l3 h1 h2
    cases l2 with
    | nil => simp [natListLt] at h1
    | cons b bs =>
      cases l3 with
      | nil => simp [natListLt] at h2
      | cons c cs =>
        simp only [natListLt, Bool.or_eq_true, Bool.and_eq_true, decide_eq_true_eq] at h1 h2 ⊢
        rcases h1 with h1 | ⟨hab, h1⟩
        · rcases h2 with h2 | ⟨hbc, h2⟩
          · exact Or.inl (by omega)
          · exact Or.inl (by omega)
        · rcases h2 with h2 | ⟨hbc, h2⟩
          · exact Or.inl (by omega)
          · exact Or.inr ⟨by omega, ih bs cs h1 h2⟩

theorem natListLt_total (l1 : List Nat) : ∀ l2, l1.length = l2.length →
    natListLt l1 l2 = false → l1 = l2 ∨ natListLt l2 l1 = true := by
  induction l1 with
  | nil =>
    intro l2 hlen _
    cases l2 with
    | nil => exact Or.inl rfl
    | cons b bs => simp at hlen
  | cons a as ih =>
    intro l2 hlen h
    cases l2 with
    | nil => simp at hlen
    | cons b bs =>
      simp only [natListLt, Bool.or_eq_false_iff, Bool.and_eq_false_iff,
        decide_eq_false_iff_not] at h
      by_cases hab : a = b
      · subst hab
        have hlt : natListLt as bs = false := by
          rcases h.2 with h2 | h2
          · simp at h2
          · exact h2
        rcases ih bs (by simpa using hlen) hlt with heq | hgt
        · exact Or.inl (by rw [heq])
        · exact Or.inr (by simp [natListLt, hgt])
      · have hba : b < a := by
          have := h.1
          omega
        exact Or.inr (by simp [natListLt, hba])

theorem dtFields_inj (a b : PyDateTime) (h : dtFields a = dtFields b) : a = b := by
  cases a
  cases b
  simp [dtFields] at h
  obtain ⟨h1, h2, h3, h4, h5, h6, h7⟩ := h
  simp [h1, h2, h3, h4, h5, h6, h7]

theorem dtLt_trans (a b c : PyDateTime) (h1 : dtLt a b = true) (h2 : dtLt b c = true) :
    dtLt a c = true :=
  natListLt_trans _ _ _ h1 h2

theorem dtLt_total (a b : PyDateTime) (h : dtLt a b = false) :
    a = b ∨ dtLt b a = true := by
  rcases natListLt_total (dtFields a) (dtFields b) (by simp [dtFields]) h with heq | hgt
  · exact Or.inl (dtFields_inj _ _ heq)
  · exact Or.inr hgt

/-- Decimal digits of `n` padded with leading zeros to width `w`. -/
def padZeros (w n : Nat) : List Char :=
  List.replicate (w - (Nat.toDigits 10 n).length) '0' ++ Nat.toDigits 10 n

/-- The characters of `strftime("%Y-%m-%d %H:%M:%S.%f")`. -/
def strftimeCursorChars (t : PyDateTime) : List Char :=
  padZeros 4 t.year ++ '-' :: (padZeros 2 t.month ++ '-' :: (padZeros 2 t.day ++
    ' ' :: (padZeros 2 t.hour ++ ':' :: (padZeros 2 t.minute ++
    ':' :: (padZeros 2 t.second ++ '.' :: padZeros 6 t.microsecond)))))

/-- The cursor string the orchestrator persists:
`max_cursor_in_run.strftime("%Y-%m-%d %H:%M:%S.%f")[:-3]` — microseconds
truncated to milliseconds. -/
def cursorToSave (t : PyDateTime) : String :=
  String.mk ((strftimeCursorChars t).take ((strftimeCursorChars t).length - 3))

theorem padZeros_length (w n : Nat) : w ≤ (padZeros w n).length := by
  simp [padZeros]
  omega

theorem strftimeCursorChars_length (t : PyDateTime) : 26 ≤ (strftimeCursorChars t).length := by
  have h1 := padZeros_length 4 t.year
  have h2 := padZeros_length 2 t.month
  have h3 := padZeros_length 2 t.day
  have h4 := padZeros_length 2 t.hour
  have h5 := padZeros_length 2 t.minute
  have h6 := padZeros_length 2 t.second
  have h7 := padZeros_length 6 t.microsecond
  simp only [strftimeCursorChars, List.length_append, List.length_cons]
  omega

/-- The formatted cursor string is never empty, so
`update_cursor_value` never takes its skip-on-falsy branch for it. -/
theorem cursorToSave_ne_empty (t : PyDateTime) : cursorToSave t ≠ "" := by
  intro h
  have hdata : ((strftimeCursorChars t).take ((strftimeCursorChars t).length - 3)).length = 0 := by
    have := congrArg String.data h
    simp only [cursorToSave, data_stringMk] at this
    simp [this]
  have hlen := strftimeCursorChars_length t
  rw [List.length_take] at hdata
  omega

/-- One iteration of the orchestrator's extract/transform/load loop:
either a chunk is yielded and fully processed (carrying the maximum
cursor-column value observed in the transformed chunk), or an exception
is raised by the extractor, transformer or loader at that point. -/
inductive StepEvent where
  | chunk (cursorMax : PyDateTime) : StepEvent
  | raiseStep : StepEvent
deriving DecidableEq

/-- The chunk maxima actually processed: chunks up to the first raise. -/
def chunkVals : List StepEvent → List PyDateTime
  | [] => []
  | StepEvent.chunk v :: r => v :: chunkVals r
  | StepEvent.raiseStep :: _ => []

/-- Whether the loop raises before finishing. -/
def hasRaise : List StepEvent → Bool
  | [] => false
  | StepEvent.chunk _ :: r => hasRaise r
  | StepEvent.raiseStep :: _ => true

/-- The running-maximum update of the loop body:
`if max_cursor_in_run is None or current_max > max_cursor_in_run`. -/
def stepMax (m : Option PyDateTime) (v : PyDateTime) : Option PyDateTime :=
  match m with
  | none => some v
  | some m₀ => if dtLt m₀ v then some v else some m₀

/-- The extraction loop of `main`: processes chunk events in order,
accumulating the running maximum and the chunk count, and aborting at the
first raise.  Returns `(max_cursor_in_run, chunk_count, raised)`. -/
def runLoop (m : Option PyDateTime) (c : Nat) : List StepEvent → Option PyDateTime × Nat × Bool
  | [] => (m, c, false)
  | StepEvent.raiseStep :: _ => (m, c, true)
  | StepEvent.chunk v :: rest => runLoop (stepMax m v) (c + 1) rest

theorem runLoop_raised (ev : List StepEvent) : ∀ m c, (runLoop m c ev).2.2 = hasRaise ev := by
  induction ev with
  | nil => intro m c; rfl
  | cons e rest ih =>
    intro m c
    cases e with
    | chunk v => simpa [runLoop, hasRaise] using ih (stepMax m v) (c + 1)
    | raiseStep => rfl

theorem runLoop_fst (ev : List StepEvent) : ∀ m c, hasRaise ev = false →
    (runLoop m c ev).1 = List.foldl stepMax m (chunkVals ev) := by
  induction ev with
  | nil => intro m c _; rfl
  | cons e rest ih =>
    intro m c h
    cases e with
    | chunk v => simpa [runLoop, chunkVals] using ih (stepMax m v) (c + 1) (by simpa [hasRaise] using h)
    | raiseStep => simp [hasRaise] at h

theorem foldl_stepMax_some (vs : List PyDateTime) : ∀ M₀ : PyDateTime,
    ∃ M, List.foldl stepMax (some M₀) vs = some M ∧ (M = M₀ ∨ M ∈ vs) ∧
      (M₀ = M ∨ dtLt M₀ M = true) ∧ ∀ v ∈ vs, v = M ∨ dtLt v M = true := by
  induction vs with
  | nil => intro M₀; exact ⟨M₀, rfl, Or.inl rfl, Or.inl rfl, by simp⟩
  | cons v tl ih =>
    intro M₀
    by_cases hv : dtLt M₀ v = true
    · obtain ⟨M, hfold, hmem, hrel, hall⟩ := ih v
      refine ⟨M, ?_, ?_, ?_, ?_⟩
      · simpa [stepMax, hv] using hfold
      · rcases hmem with rfl | hM
        · exact Or.inr (List.mem_cons_self _ _)
        · exact Or.inr (List.mem_cons_of_mem _ hM)
      · rcases hrel with rfl | hgt
        · exact Or.inr hv
        · exact Or.inr (dtLt_trans _ _ _ hv hgt)
      · intro w hw
        rcases List.mem_cons.mp hw with rfl | hw'
        · exact hrel
        · exact hall w hw'
    · obtain ⟨M, hfold, hmem, hrel, hall⟩ := ih M₀
      refine ⟨M, ?_, ?_, ?_, ?_⟩
      · simpa [stepMax, hv] using hfold
      · rcases hmem with rfl | hM
        · exact Or.inl rfl
        · exact Or.inr (List.mem_cons_of_mem _ hM)
      · exact hrel
      · intro w hw
        rcases List.mem_cons.mp hw with rfl | hw'
        · rcases dtLt_total _ _ (by simpa using hv) with heq | hlt
          · rcases hrel with rfl | hgt
            · exact Or.inl heq.symm
            · exact Or.inr (by rw [← heq]; exact hgt)
          · rcases hrel with rfl | hgt
            · exact Or.inr hlt
            · exact Or.inr (dtLt_trans _ _ _ hlt hgt)
        · exact hall w hw'

theorem foldl_stepMax_none (vs : List PyDateTime) (h : vs ≠ []) :
    ∃ M, List.foldl stepMax none vs = some M ∧ M ∈ vs ∧
      ∀ v ∈ vs, v = M ∨ dtLt v M = true := by
  cases vs with
  | nil => exact absurd rfl h
  | cons v tl =>
    obtain ⟨M, hfold, hmem, hrel, hall⟩ := foldl_stepMax_some tl v
    refine ⟨M, by simpa [stepMax] using hfold, ?_, ?_⟩
    · rcases hmem with rfl | hM
      · exact List.mem_cons_self _ _
      · exact List.mem_cons_of_mem _ hM
    · intro w hw
      rcases List.mem_cons.mp hw with rfl | hw'
      · exact hrel
      · exact hall w hw'

/-- The visible outcome of one orchestrator run: the final metadata store
state, the process exit code, the invocations of `update_cursor_value`
made during the run, and the bound parameters passed to the extraction
query. -/
structure RunResult where
  store : MetadataStore
  exitCode : Nat
  cursorUpdates : List String
  queryParams : List String
  drift : SchemaDriftInfo
deriving DecidableEq

/-- Embedding of `main` from `app/main.py` after job selection: load the
reference schema (bootstrapping it from the current schema when absent),
compute drift, read the last cursor (its download outcome is an input,
so read faults can be modelled), run the extraction loop over the given
events, and — only when the loop finished without raising and observed at
least one chunk — persist the formatted running maximum via
`update_cursor_value`.  A raise anywhere in the loop aborts the run with
exit code 1 and no cursor write. -/
def runMain (st : MetadataStore) (cursorRead : Except GcsReadError String)
    (currentSchema : List (String × String)) (events : List StepEvent) : RunResult :=
  let ref? := getReferenceSchema st
  let st₁ := match ref? with
    | none => saveReferenceSchema st currentSchema
    | some _ => st
  let reference := match ref? with
    | none => currentSchema
    | some r => r
  let drift := validate_current_schema reference currentSchema
  let lastCursor := getLastCursorValue cursorRead
  match runLoop none 0 events with
  | (_, _, true) => RunResult.mk st₁ 1 [] [lastCursor] drift
  | (none, _, false) => RunResult.mk st₁ 0 [] [lastCursor] drift
  | (some m, _, false) =>
    RunResult.mk (updateCursorValue st₁ (cursorToSave m)) 0 [cursorToSave m] [lastCursor] drift

theorem runMain_bootstrapStore_cursorBlob (st : MetadataStore) (cs : List (String × String)) :
    (match getReferenceSchema st with
      | none => saveReferenceSchema st cs
      | some _ => st).cursorBlob = st.cursorBlob := by
  cases getReferenceSchema st <;> simp [saveReferenceSchema]

theorem getReferenceSchema_updateCursorValue (st : MetadataStore) (v : String) :
    getReferenceSchema (updateCursorValue st v) = getReferenceSchema st := by
  unfold updateCursorValue
  split_ifs <;> simp [getReferenceSchema]

theorem updateCursorValue_schemaBlob (st : MetadataStore) (v : String) :
    (updateCursorValue st v).schemaBlob = st.schemaBlob := by
  unfold updateCursorValue
  split_ifs <;> rfl

/-- C1: the stored cursor is overwritten, via `update_cursor_value`, only
after the extraction/transform/load loop completes without raising and
only if at least one chunk was processed; if the loop raises at any point
or yields zero chunks, `update_cursor_value` is never invoked and the
previously stored cursor blob is unchanged. -/
theorem cursor_commit_only_on_success (st : MetadataStore) (r : Except GcsReadError String)
    (cs : List (String × String)) (ev : List StepEvent) :
    ((hasRaise ev = true ∨ chunkVals ev = []) →
       (runMain st r cs ev).cursorUpdates = [] ∧
       (runMain st r cs ev).store.cursorBlob = st.cursorBlob) ∧
    ((runMain st r cs ev).cursorUpdates ≠ [] →
       hasRaise ev = false ∧ chunkVals ev ≠ []) := by
  have hr := runLoop_raised ev none 0
  rcases hret : runLoop none 0 ev with ⟨m, c, raised⟩
  rw [hret] at hr
  simp only at hr
  constructor
  · intro h
    cases raised with
    | true =>
      exact ⟨by simp [runMain, hret], by simp [runMain, hret, runMain_bootstrapStore_cursorBlob]⟩
    | false =>
      have hnr : hasRaise ev = false := hr.symm
      have hempty : chunkVals ev = [] := by
        rcases h with h | h
        · rw [hnr] at h; exact absurd h (by simp)
        · exact h
      have hm : m = none := by
        have hfst := runLoop_fst ev none 0 hnr
        rw [hret, hempty] at hfst
        simpa using hfst
      subst hm
      exact ⟨by simp [runMain, hret], by simp [runMain, hret, runMain_bootstrapStore_cursorBlob]⟩
  · intro hne
    cases raised with
    | true => simp [runMain, hret] at hne
    | false =>
      have hnr : hasRaise ev = false := hr.symm
      refine ⟨hnr, ?_⟩
      intro hempty
      have hm : m = none := by
        have hfst := runLoop_fst ev none 0 hnr
        rw [hret, hempty] at hfst
        simpa using hfst
      subst hm
      simp [runMain, hret] at hne

/-- Witness for C1 at a concrete run: a loop that raises after one chunk
invokes no cursor update and leaves the stored cursor unchanged. -/
theorem cursor_commit_only_on_success_witness :
    (runMain (MetadataStore.mk (some "c0") none) (Except.ok "c0") [("id", "INT")]
       [StepEvent.chunk (PyDateTime.mk 2024 1 1 0 0 0 0), StepEvent.raiseStep]).cursorUpdates = [] ∧
    (runMain (MetadataStore.mk (some "c0") none) (Except.ok "c0") [("id", "INT")]
       [StepEvent.chunk (PyDateTime.mk 2024 1 1 0 0 0 0), StepEvent.raiseStep]).store.cursorBlob =
      (MetadataStore.mk (some "c0") none).cursorBlob :=
  (cursor_commit_only_on_success (MetadataStore.mk (some "c0") none) (Except.ok "c0")
    [("id", "INT")] [StepEvent.chunk (PyDateTime.mk 2024 1 1 0 0 0 0), StepEvent.raiseStep]).1
    (Or.inl (by decide))

/-- C3: after a run whose loop completes without raising and processes at
least one chunk, the maximum `M` observed across the chunks is committed:
the cursor blob holds exactly the formatted string of `M`
(`strftime("%Y-%m-%d %H:%M:%S.%f")[:-3]`) and a subsequent
`get_last_cursor_value` returns that string character for character. -/
theorem run_commits_formatted_max (st : MetadataStore) (r : Except GcsReadError String)
    (cs : List (String × String)) (ev : List StepEvent)
    (h1 : hasRaise ev = false) (h2 : chunkVals ev ≠ []) :
    ∃ M, M ∈ chunkVals ev ∧ (∀ v ∈ chunkVals ev, v = M ∨ dtLt v M = true) ∧
      (runMain st r cs ev).store.cursorBlob = some (cursorToSave M) ∧
      getLastCursorValueStore (runMain st r cs ev).store = cursorToSave M ∧
      (runMain st r cs ev).cursorUpdates = [cursorToSave M] := by
  obtain ⟨M, hfold, hmem, hall⟩ := foldl_stepMax_none (chunkVals ev) h2
  have hfst := runLoop_fst ev none 0 h1
  have hr := runLoop_raised ev none 0
  rcases hret : runLoop none 0 ev with ⟨m, c, raised⟩
  rw [hret] at hfst hr
  simp only at hfst hr
  rw [hfold] at hfst
  have hraised : raised = false := by rw [hr, h1]
  subst hfst hraised
  refine ⟨M, hmem, hall, ?_, ?_, ?_⟩
  · simp [runMain, hret, updateCursorValue, cursorToSave_ne_empty M]
  · simp [runMain, hret, updateCursorValue, cursorToSave_ne_empty M,
      getLastCursorValueStore, blobDownload, getLastCursorValue]
  · simp [runMain, hret]

/-- Witness for C3 at a concrete run of two chunks: the later chunk's
maximum is committed and read back in millisecond format. -/
theorem run_commits_formatted_max_witness :
    ∃ M, M ∈ chunkVals [StepEvent.chunk (PyDateTime.mk 2024 5 1 10 0 0 123456),
        StepEvent.chunk (PyDateTime.mk 2024 5 2 11 30 15 999999)] ∧
      (∀ v ∈ chunkVals [StepEvent.chunk (PyDateTime.mk 2024 5 1 10 0 0 123456),
        StepEvent.chunk (PyDateTime.mk 2024 5 2 11 30 15 999999)], v = M ∨ dtLt v M = true) ∧
      (runMain (MetadataStore.mk none none) (Except.error GcsReadError.notFound) [("id", "INT")]
        [StepEvent.chunk (PyDateTime.mk 2024 5 1 10 0 0 123456),
         StepEvent.chunk (PyDateTime.mk 2024 5 2 11 30 15 999999)]).store.cursorBlob =
        some (cursorToSave M) ∧
      getLastCursorValueStore (runMain (MetadataStore.mk none none)
        (Except.error GcsReadError.notFound) [("id", "INT")]
        [StepEvent.chunk (PyDateTime.mk 2024 5 1 10 0 0 123456),
         StepEvent.chunk (PyDateTime.mk 2024 5 2 11 30 15 999999)]).store = cursorToSave M ∧
      (runMain (MetadataStore.mk none none) (Except.error GcsReadError.notFound) [("id", "INT")]
        [StepEvent.chunk (PyDateTime.mk 2024 5 1 10 0 0 123456),
         StepEvent.chunk (PyDateTime.mk 2024 5 2 11 30 15 999999)]).cursorUpdates =
        [cursorToSave M] :=
  run_commits_formatted_max (MetadataStore.mk none none) (Except.error GcsReadError.notFound)
    [("id", "INT")]
    [StepEvent.chunk (PyDateTime.mk 2024 5 1 10 0 0 123456),
     StepEvent.chunk (PyDateTime.mk 2024 5 2 11 30 15 999999)]
    (by decide) (by decide)

/-- C9: on a bootstrap run (reference schema absent) the orchestrator
persists the current schema as the new reference schema before the
extraction loop; if the run then fails at any later step the saved
reference schema remains persisted — a later `get_reference_schema`
returns it — while no cursor was committed and the process exits 1. -/
theorem bootstrap_schema_persists (st : MetadataStore) (r : Except GcsReadError String)
    (cs : List (String × String)) (ev : List StepEvent)
    (h : getReferenceSchema st = none) :
    getReferenceSchema (runMain st r cs ev).store = some cs ∧
    (hasRaise ev = true →
      (runMain st r cs ev).store.cursorBlob = st.cursorBlob ∧
      (runMain st r cs ev).exitCode = 1 ∧
      (runMain st r cs ev).cursorUpdates = []) := by
  have hr := runLoop_raised ev none 0
  rcases hret : runLoop none 0 ev with ⟨m, c, raised⟩
  rw [hret] at hr
  simp only at hr
  constructor
  · cases raised <;> rcases m with _ | M <;>
      · simp only [runMain, hret, h]
        simp [updateCursorValue_schemaBlob, saveReferenceSchema, getReferenceSchema,
          jsonLoads_jsonDumps]
  · intro hbr
    have : raised = true := by rw [hr, hbr]
    subst this
    refine ⟨?_, ?_, ?_⟩
    · simp [runMain, hret, h, saveReferenceSchema]
    · simp [runMain, hret]
    · simp [runMain, hret]

/-- Witness for C9 at a concrete bootstrap run that raises before any
chunk: the reference schema is persisted, the cursor is untouched and the
exit code is 1. -/
theorem bootstrap_schema_persists_witness :
    getReferenceSchema (runMain (MetadataStore.mk (some "c0") none)
      (Except.ok "c0") [("id", "INT"), ("ts", "DATETIME2(3)")] [StepEvent.raiseStep]).store =
      some [("id", "INT"), ("ts", "DATETIME2(3)")] ∧
    (hasRaise [StepEvent.raiseStep] = true →
      (runMain (MetadataStore.mk (some "c0") none) (Except.ok "c0")
        [("id", "INT"), ("ts", "DATETIME2(3)")] [StepEvent.raiseStep]).store.cursorBlob =
        (MetadataStore.mk (some "c0") none).cursorBlob ∧
      (runMain (MetadataStore.mk (some "c0") none) (Except.ok "c0")
        [("id", "INT"), ("ts", "DATETIME2(3)")] [StepEvent.raiseStep]).exitCode = 1 ∧
      (runMain (MetadataStore.mk (some "c0") none) (Except.ok "c0")
        [("id", "INT"), ("ts", "DATETIME2(3)")] [StepEvent.raiseStep]).cursorUpdates = []) :=
  bootstrap_schema_persists (MetadataStore.mk (some "c0") none) (Except.ok "c0")
    [("id", "INT"), ("ts", "DATETIME2(3)")] [StepEvent.raiseStep] (by decide)

/-- C8: `get_last_cursor_value` returns the sentinel
`"1900-01-01 00:00:00.000"` on every failure of the underlying storage
read — any error, not only absence — never propagating the error, so a
faulted read makes the run extract from the sentinel (a full historical
load): the bound query parameter of such a run is the sentinel. -/
theorem cursorRead_fault_defaults_sentinel (e : GcsReadError) (st : MetadataStore)
    (cs : List (String × String)) (ev : List StepEvent) :
    getLastCursorValue (Except.error e) = defaultCursorSentinel ∧
    defaultCursorSentinel = "1900-01-01 00:00:00.000" ∧
    (runMain st (Except.error e) cs ev).queryParams = [defaultCursorSentinel] := by
  refine ⟨rfl, rfl, ?_⟩
  rcases hret : runLoop none 0 ev with ⟨m, c, raised⟩
  cases raised <;> rcases m with _ | M <;> simp [runMain, hret, getLastCursorValue]

/-- A query as issued through `pd.read_sql`: its SQL text and the tuple of
bound parameters. -/
structure SqlQuerySpec where
  text : String
  params : List String
deriving DecidableEq

namespace SQLServerExtractor

/-- Embedding of `SQLServerExtractor._build_incremental_query` from
`app/controller/extractor.py`: the exact triple-quoted f-string, with the
bracketed column list joined by `", "` and a single `?` parameter marker. -/
def buildIncrementalQuery (columns_to_select : List String)
    (schema_name table_name cursor_column : String) : String :=
  "\n            " ++ ("SELECT " ++ String.intercalate ", " (columns_to_select.map (fun c => "[" ++ c ++ "]"))) ++
  "\n            " ++ ("FROM [" ++ schema_name ++ "].[" ++ table_name ++ "]") ++
  "\n            " ++ ("WHERE [" ++ cursor_column ++ "] >= ?") ++
  "\n            " ++ ("ORDER BY [" ++ cursor_column ++ "] ASC") ++
  "\n            "

/-- The query `SQLServerExtractor.extract_chunks` passes to `pd.read_sql`:
the built text with the last cursor as the single bound parameter
(`params=(last_cursor,)`). -/
def extractChunksQuery (columns_to_select : List String)
    (schema_name table_name cursor_column last_cursor : String) : SqlQuerySpec :=
  SqlQuerySpec.mk (buildIncrementalQuery columns_to_select schema_name table_name cursor_column)
    [last_cursor]

end SQLServerExtractor

namespace PostgreSQLExtractor

/-- Embedding of `PostgreSQLExtractor._build_incremental_query` from
`app/controller/source.py`: `SELECT *`, strict `>` comparison, and the
cursor value interpolated into the SQL text between single quotes. -/
def buildIncrementalQuery (schema_name table_name cursor_column last_cursor : String) : String :=
  "\n            " ++ ("SELECT *") ++
  "\n            " ++ ("FROM " ++ schema_name ++ "." ++ table_name) ++
  "\n            " ++ ("WHERE " ++ cursor_column ++ " > " ++ sglQuote ++ last_cursor ++ sglQuote) ++
  "\n            " ++ ("ORDER BY " ++ cursor_column ++ " ASC") ++
  "\n            "

/-- The query `PostgreSQLExtractor.extract_chunks` passes to `pd.read_sql`:
no bound parameters at all. -/
def extractChunksQuery (schema_name table_name cursor_column last_cursor : String) : SqlQuerySpec :=
  SqlQuerySpec.mk (buildIncrementalQuery schema_name table_name cursor_column last_cursor) []

end PostgreSQLExtractor

/-- C4 (amended): the SQL Server extractor builds one parameterized query
`SELECT <columns> FROM [schema].[table] WHERE [cursor] >= ? ORDER BY
[cursor] ASC` whose text does not depend on the cursor value, passing the
cursor as the single bound parameter; the PostgreSQL extractor variant
instead interpolates the cursor literal into the text with a strict `>`
comparison and passes no bound parameter. -/
theorem incremental_query_forms (cols : List String) (sn tn cc lc : String) :
    (SQLServerExtractor.extractChunksQuery cols sn tn cc lc).params = [lc] ∧
    (SQLServerExtractor.extractChunksQuery cols sn tn cc lc).text =
      SQLServerExtractor.buildIncrementalQuery cols sn tn cc ∧
    pyIn ("SELECT " ++ String.intercalate ", " (cols.map (fun c => "[" ++ c ++ "]")))
      (SQLServerExtractor.extractChunksQuery cols sn tn cc lc).text = true ∧
    pyIn ("WHERE [" ++ cc ++ "] >= ?")
      (SQLServerExtractor.extractChunksQuery cols sn tn cc lc).text = true ∧
    pyIn ("ORDER BY [" ++ cc ++ "] ASC")
      (SQLServerExtractor.extractChunksQuery cols sn tn cc lc).text = true ∧
    (PostgreSQLExtractor.extractChunksQuery sn tn cc lc).params = [] ∧
    pyIn ("WHERE " ++ cc ++ " > " ++ sglQuote ++ lc ++ sglQuote)
      (PostgreSQLExtractor.extractChunksQuery sn tn cc lc).text = true := by
  refine ⟨rfl, rfl, ?_, ?_, ?_, rfl, ?_⟩
  · apply pyIn_of_middle "\n            "
      ("\n            " ++ ("FROM [" ++ sn ++ "].[" ++ tn ++ "]") ++
       "\n            " ++ ("WHERE [" ++ cc ++ "] >= ?") ++
       "\n            " ++ ("ORDER BY [" ++ cc ++ "] ASC") ++
       "\n            ")
    apply String.ext
    simp [SQLServerExtractor.extractChunksQuery, SQLServerExtractor.buildIncrementalQuery,
      String.data_append, List.append_assoc]
  · apply pyIn_of_middle
      ("\n            " ++ ("SELECT " ++ String.intercalate ", " (cols.map (fun c => "[" ++ c ++ "]"))) ++
       "\n            " ++ ("FROM [" ++ sn ++ "].[" ++ tn ++ "]") ++ "\n            ")
      ("\n            " ++ ("ORDER BY [" ++ cc ++ "] ASC") ++ "\n            ")
    apply String.ext
    simp [SQLServerExtractor.extractChunksQuery, SQLServerExtractor.buildIncrementalQuery,
      String.data_append, List.append_assoc]
  · apply pyIn_of_middle
      ("\n            " ++ ("SELECT " ++ String.intercalate ", " (cols.map (fun c => "[" ++ c ++ "]"))) ++
       "\n            " ++ ("FROM [" ++ sn ++ "].[" ++ tn ++ "]") ++
       "\n            " ++ ("WHERE [" ++ cc ++ "] >= ?") ++ "\n            ")
      "\n            "
    apply String.ext
    simp [SQLServerExtractor.extractChunksQuery, SQLServerExtractor.buildIncrementalQuery,
      String.data_append, List.append_assoc]
  · apply pyIn_of_middle
      ("\n            " ++ ("SELECT *") ++
       "\n            " ++ ("FROM " ++ sn ++ "." ++ tn) ++ "\n            ")
      ("\n            " ++ ("ORDER BY " ++ cc ++ " ASC") ++ "\n            ")
    apply String.ext
    simp [PostgreSQLExtractor.extractChunksQuery, PostgreSQLExtractor.buildIncrementalQuery,
      String.data_append, List.append_assoc]

/-- Counterexample to C4 as stated: the PostgreSQL extractor variant's
query for a concrete cursor value has no parameter marker and no bound
parameter; the cursor value appears interpolated in the query text
between single quotes, after a strict `>`. -/
theorem incremental_query_forms_cex :
    (PostgreSQLExtractor.extractChunksQuery "public" "users" "updated_at"
       "2024-01-01 00:00:00.000").params = [] ∧
    pyIn "?" (PostgreSQLExtractor.extractChunksQuery "public" "users" "updated_at"
       "2024-01-01 00:00:00.000").text = false ∧
    pyIn (" > " ++ sglQuote ++ "2024-01-01 00:00:00.000" ++ sglQuote)
      (PostgreSQLExtractor.extractChunksQuery "public" "users" "updated_at"
       "2024-01-01 00:00:00.000").text = true := by
  refine ⟨rfl, by decide, by decide⟩

/-- Value of a decimal digit character. -/
def digitVal (c : Char) : Option Nat :=
  if 48 ≤ c.toNat ∧ c.toNat ≤ 57 then some (c.toNat - 48) else none

/-- Parse exactly two decimal digits. -/
def parseFixed2 : List Char → Option (Nat × List Char)
  | a :: b :: rest =>
    match digitVal a, digitVal b with
    | some x, some y => some (10 * x + y, rest)
    | _, _ => none
  | _ => none

/-- Parse exactly four decimal digits. -/
def parseFixed4 : List Char → Option (Nat × List Char)
  | a :: b :: c :: d :: rest =>
    match digitVal a, digitVal b, digitVal c, digitVal d with
    | some x, some y, some z, some w => some (1000 * x + 100 * y + 10 * z + w, rest)
    | _, _, _, _ => none
  | _ => none

/-- Parse exactly six decimal digits (a microsecond fraction). -/
def parseFixed6 : List Char → Option (Nat × List Char)
  | a :: b :: c :: d :: e :: f :: rest =>
    match digitVal a, digitVal b, digitVal c, digitVal d, digitVal e, digitVal f with
    | some x, some y, some z, some w, some u, some v =>
      some (100000 * x + 10000 * y + 1000 * z + 100 * w + 10 * u + v, rest)
    | _, _, _, _, _, _ => none
  | _ => none

/-- Parse the `HH:MM:SS[.ffffff]` time part. -/
def parseIsoTime (y mo d : Nat) (cs : List Char) : Option PyDateTime :=
  match parseFixed2 cs with
  | none => none
  | some (h, cs₁) =>
    match cs₁ with
    | ':' :: cs₂ =>
      match parseFixed2 cs₂ with
      | none => none
      | some (mi, cs₃) =>
        match cs₃ with
        | ':' :: cs₄ =>
          match parseFixed2 cs₄ with
          | none => none
          | some (s, cs₅) =>
            if h ≤ 23 ∧ mi ≤ 59 ∧ s ≤ 59 then
              match cs₅ with
              | [] => some (PyDateTime.mk y mo d h mi s 0)
              | '.' :: cs₆ =>
                match parseFixed6 cs₆ with
                | some (us, []) => some (PyDateTime.mk y mo d h mi s us)
                | _ => none
              | _ => none
            else none
        | _ => none
    | _ => none

/-- Model of Python `datetime.fromisoformat` restricted to the naive
`YYYY-MM-DD[ T]HH:MM:SS[.ffffff]` forms (date-only allowed); anything
else is a parse failure, which `load_chunk` turns into "use now". -/
def pyDatetimeFromIso (s : String) : Option PyDateTime :=
  match parseFixed4 s.data with
  | none => none
  | some (y, cs₁) =>
    match cs₁ with
    | '-' :: cs₂ =>
      match parseFixed2 cs₂ with
      | none => none
      | some (mo, cs₃) =>
        match cs₃ with
        | '-' :: cs₄ =>
          match parseFixed2 cs₄ with
          | none => none
          | some (d, cs₅) =>
            if 1 ≤ mo ∧ mo ≤ 12 ∧ 1 ≤ d ∧ d ≤ 31 then
              match cs₅ with
              | [] => some (PyDateTime.mk y mo d 0 0 0 0)
              | sep :: cs₆ =>
                if sep = ' ' ∨ sep = 'T' then parseIsoTime y mo d cs₆ else none
            else none
        | _ => none
    | _ => none

/-- Embedding of the timestamp resolution in
`GCSParquetLoader.load_chunk` (its "Date Logic" block), executed once per
chunk write: a truthy `execution_ts` is parsed (falling back to the
current wall-clock time when unparsable); an absent or empty
`execution_ts` yields the wall-clock time of that call. -/
def resolveLoadTs (execution_ts : Option String) (now : PyDateTime) : PyDateTime :=
  match execution_ts with
  | none => now
  | some s =>
    if s = "" then now
    else
      match pyDatetimeFromIso s with
      | some t => t
      | none => now

/-- The `%Y%m%d%H%M%S` compact timestamp used in the chunk file name. -/
def compactTsChars (t : PyDateTime) : List Char :=
  padZeros 4 t.year ++ padZeros 2 t.month ++ padZeros 2 t.day ++
    padZeros 2 t.hour ++ padZeros 2 t.minute ++ padZeros 2 t.second

/-- The year/month/day/hour partition prefix of the destination path
built by `load_chunk` ("Partition Logic"). -/
def partitionDir (table : String) (ts : PyDateTime) : String :=
  "mssql/tables/" ++ table ++ "/ingestion/year=" ++ String.mk (padZeros 4 ts.year) ++
  "/month=" ++ String.mk (padZeros 2 ts.month) ++ "/day=" ++ String.mk (padZeros 2 ts.day) ++
  "/hour=" ++ String.mk (padZeros 2 ts.hour)

/-- The full destination path of one chunk file. -/
def gcsChunkPath (table : String) (execution_ts : Option String) (now : PyDateTime)
    (chunk_index : Nat) : String :=
  partitionDir table (resolveLoadTs execution_ts now) ++ "/" ++
  String.mk (compactTsChars (resolveLoadTs execution_ts now)) ++ "_" ++
  toString chunk_index ++ ".parquet"

/-- C6 (amended): when a non-empty, parseable execution timestamp is
supplied, every chunk of the run resolves to that same timestamp
regardless of the wall clock, so all files share one partition; when the
execution timestamp is absent, each chunk write resolves to its own
wall-clock time, so chunks of one run need not share a partition. -/
theorem run_timestamp_partition (table s : String) (t nowA nowB : PyDateTime)
    (hne : s ≠ "") (hparse : pyDatetimeFromIso s = some t) :
    resolveLoadTs (some s) nowA = t ∧
    partitionDir table (resolveLoadTs (some s) nowA) =
      partitionDir table (resolveLoadTs (some s) nowB) ∧
    resolveLoadTs none nowA = nowA := by
  refine ⟨?_, ?_, rfl⟩ <;> simp [resolveLoadTs, hne, hparse]

/-- Witness for C6's amended theorem: a concrete Airflow-style execution
timestamp pins both chunk writes of a run to the same resolved timestamp
and partition. -/
theorem run_timestamp_partition_witness :
    resolveLoadTs (some "2024-05-01T12:30:00") (PyDateTime.mk 2024 5 1 12 59 59 0) =
      PyDateTime.mk 2024 5 1 12 30 0 0 ∧
    partitionDir "users" (resolveLoadTs (some "2024-05-01T12:30:00")
        (PyDateTime.mk 2024 5 1 12 59 59 0)) =
      partitionDir "users" (resolveLoadTs (some "2024-05-01T12:30:00")
        (PyDateTime.mk 2024 5 1 13 59 59 0)) ∧
    resolveLoadTs none (PyDateTime.mk 2024 5 1 12 59 59 0) =
      PyDateTime.mk 2024 5 1 12 59 59 0 :=
  run_timestamp_partition "users" "2024-05-01T12:30:00" (PyDateTime.mk 2024 5 1 12 30 0 0)
    (PyDateTime.mk 2024 5 1 12 59 59 0) (PyDateTime.mk 2024 5 1 13 59 59 0)
    (by decide) (by decide)

/-- Counterexample to C6 as stated: with no execution timestamp, each
chunk write uses its own wall-clock time; two chunks of one run written
an hour apart land in different hour partitions. -/
theorem run_timestamp_partition_cex :
    resolveLoadTs none (PyDateTime.mk 2024 1 1 10 0 0 0) = PyDateTime.mk 2024 1 1 10 0 0 0 ∧
    resolveLoadTs none (PyDateTime.mk 2024 1 1 11 0 0 0) = PyDateTime.mk 2024 1 1 11 0 0 0 ∧
    partitionDir "users" (resolveLoadTs none (PyDateTime.mk 2024 1 1 10 0 0 0)) ≠
      partitionDir "users" (resolveLoadTs none (PyDateTime.mk 2024 1 1 11 0 0 0)) := by
  refine ⟨rfl, rfl, by decide⟩
